import Mathlib

/-!
Verification of the BannkMint AI SMB Banking OS against its natural-language
specification.  The frontend components (confidence badge, upload handler,
forecast API client) are embedded from the captured React sources.  The
backend core pipeline (deduplicating ingestion, tiered categorization,
recurring-pattern detection, forecasting with crisis alerts) is not present
in the captured sources — only its callers and response shapes are — so those
parts are modelled from the specification text, as marked on each definition.

Conventions: JavaScript numbers are modelled as exact rationals (amounts,
confidences) or integers (sizes, week counts, day offsets); strings are Lean
strings, with character-list helpers standing in for the JavaScript string
methods so that everything evaluates inside the kernel.
-/

/-- ASCII lower-casing of a single character, as JavaScript toLowerCase acts
on the ASCII range. -/
def lowerChar (c : Char) : Char :=
  if 'A' ≤ c ∧ c ≤ 'Z' then Char.ofNat (c.toNat + 32) else c

/-- Character list of a string lower-cased (ASCII), the model of
JavaScript name.toLowerCase(). -/
def lowerStr (s : String) : List Char := s.toList.map lowerChar

/-- Model of JavaScript String.endsWith on character lists. -/
def endsWithL (s suf : List Char) : Bool := suf.isSuffixOf s

/-- Substring test on character lists, the model of JavaScript
String.includes and of a contains-style pattern match. -/
def isSubstr (pat s : List Char) : Bool :=
  match s with
  | [] => pat.isEmpty
  | _ :: rest => pat.isPrefixOf s || isSubstr pat rest

/-- Model of JavaScript Math.round: round half towards positive infinity. -/
def jsRound (x : ℚ) : Int := ⌊x + mkRat 1 2⌋

/-- ConfidenceBadge.getConfidenceLabel from the reconciliation UI: the label
thresholds 0.95 / 0.85 / 0.75. -/
def getConfidenceLabel (conf : ℚ) : String :=
  if conf ≥ mkRat 95 100 then "High"
  else if conf ≥ mkRat 85 100 then "Good"
  else if conf ≥ mkRat 75 100 then "Medium"
  else "Low"

/-- A rendered confidence badge: the grey Unknown badge, or a labelled badge
carrying the label text and the rounded percentage. -/
inductive Badge where
  | unknown : Badge
  | labeled : String → Int → Badge
deriving DecidableEq, Repr

/-- The ConfidenceBadge component.  The confidence prop is null or undefined
(none) or a number (some c).  The source guard is
(!confidence && confidence !== 0): for a number c this is the conjunction of
c being falsy (c = 0) and c differing from 0, so it can hold only for the
missing value; otherwise the labelled badge is rendered with
Math.round(confidence * 100). -/
def confidenceBadge : Option ℚ → Badge
  | none => Badge.unknown
  | some c =>
    if (c == 0) && !(c == 0) then Badge.unknown
    else Badge.labeled (getConfidenceLabel c) (jsRound (c * 100))

/-- Label text of a badge, none for the Unknown badge. -/
def badgeLabel : Badge → Option String
  | Badge.unknown => none
  | Badge.labeled l _ => some l

/-- A file selected in the upload page: its name and its size in bytes. -/
structure UploadFile where
  name : String
  size : Nat
deriving DecidableEq, Repr

/-- Outcome of the upload handler: an error status is set, or a POST is
issued to the given path. -/
inductive UploadAction where
  | errorStatus : String → UploadAction
  | post : String → UploadAction
deriving DecidableEq, Repr

/-- handleFileUpload from the upload page: a name not ending in .csv
(case-insensitively) or a size above 20 * 1024 * 1024 bytes sets an error
status and returns before any network request; otherwise the file is POSTed
to /api/ingest. -/
def handleFileUpload (file : UploadFile) : UploadAction :=
  if !(endsWithL (lowerStr file.name) ".csv".toList) then
    UploadAction.errorStatus "Please upload a CSV file only."
  else if file.size > 20 * 1024 * 1024 then
    UploadAction.errorStatus "File too large. Please upload files smaller than 20MB."
  else
    UploadAction.post "/api/ingest"

/-- Whether an upload action is the POST. -/
def issuesPost : UploadAction → Bool
  | UploadAction.post _ => true
  | UploadAction.errorStatus _ => false

/-- The query parameters of a forecast request issued by the client. -/
structure ForecastRequest where
  weeks : Int
  scenarioParam : String
deriving DecidableEq, Repr

/-- api.getForecast from the frontend service layer: the weeks argument is
clamped by Math.max(4, Math.min(weeks, 8)) and a request is always issued;
the scenario is appended unchanged. -/
def getForecastRequest (weeks : Int) (scen : String) : ForecastRequest :=
  { weeks := max 4 (min weeks 8), scenarioParam := scen }

/-- Modelled from the spec: the Deduplicator and ingestion loop are not in
the captured sources.  A normalized transaction candidate carries the
account id, date (as a day number), signed amount (in cents) and normalized
description, exactly the fields of the dedup fingerprint. -/
structure Candidate where
  accountId : String
  date : Nat
  amount : Int
  normDesc : String
deriving DecidableEq, Repr

/-- The dedup fingerprint (account_id, date, amount, normalized_description). -/
abbrev Fingerprint := String × Nat × Int × String

/-- Fingerprint of a candidate. -/
def fingerprint (c : Candidate) : Fingerprint :=
  (c.accountId, c.date, c.amount, c.normDesc)

/-- The persisted transaction store. -/
structure Store where
  txns : List Candidate
deriving DecidableEq, Repr

/-- Whether a fingerprint is already registered in the store. -/
def seen (st : Store) (fp : Fingerprint) : Bool :=
  (st.txns.map fingerprint).contains fp

/-- Modelled from the spec: the Deduplicator admits a candidate whose
fingerprint is not yet registered and registers it; a candidate whose
fingerprint is present is dropped as a duplicate.  Returns the new store and
whether the candidate was admitted. -/
def ingestOne (st : Store) (c : Candidate) : Store × Bool :=
  if seen st (fingerprint c) then (st, false)
  else ({ txns := st.txns ++ [c] }, true)

/-- Modelled from the spec: one upload processes the rows of a file in
order through the Deduplicator; returns the new store, the imported count
and the duplicate count. -/
def ingestFile : Store → List Candidate → Store × Nat × Nat
  | st, [] => (st, 0, 0)
  | st, c :: rest =>
    let step := ingestOne st c
    let tail := ingestFile step.1 rest
    if step.2 then (tail.1, tail.2.1 + 1, tail.2.2)
    else (tail.1, tail.2.1, tail.2.2 + 1)

/-- Rule match kinds.  Modelled from the spec: exact, contains and regex;
regex patterns are interpreted as an alternation of literal substrings
separated by the vertical bar, the only regex form the specification
exercises. -/
inductive MatchType where
  | exact : MatchType
  | contains : MatchType
  | regex : MatchType
deriving DecidableEq, Repr

/-- A user categorization rule.  Lower priority means higher precedence. -/
structure Rule where
  pattern : String
  matchType : MatchType
  category : String
  confidence : ℚ
  priority : Nat
deriving DecidableEq, Repr

/-- Whether a rule matches a normalized description. -/
def ruleMatches (r : Rule) (desc : String) : Bool :=
  match r.matchType with
  | MatchType.exact => desc == r.pattern
  | MatchType.contains => isSubstr r.pattern.toList desc.toList
  | MatchType.regex =>
      ((r.pattern.splitOn "|").map String.toList).any
        (fun alt => isSubstr alt desc.toList)

/-- Of two matching rules, the one that wins: lower priority first, longer
pattern on equal priority, the earlier rule otherwise. -/
def betterRule (a b : Rule) : Rule :=
  if b.priority < a.priority then b
  else if b.priority = a.priority ∧ a.pattern.length < b.pattern.length then b
  else a

/-- The rule the rule tier selects for a description, if any rule matches. -/
def findRule (rules : List Rule) (desc : String) : Option Rule :=
  match rules.filter (fun r => ruleMatches r desc) with
  | [] => none
  | r :: rs => some (rs.foldl betterRule r)

/-- Modelled from the spec: the built-in keyword-to-category dictionary of
the heuristic tier, each entry with a fixed confidence in 0.75 to 0.90; the
specification names the coffee example, the other entries follow it. -/
def heuristicTable : List (String × String × ℚ) :=
  [ ("coffee", "Meals and Entertainment", mkRat 4 5),
    ("starbucks", "Meals and Entertainment", mkRat 4 5),
    ("payroll", "Payroll", mkRat 9 10),
    ("rent", "Rent", mkRat 9 10),
    ("uber", "Travel", mkRat 3 4) ]

/-- A memory-tier pattern synthesized from at least three identical user
corrections sharing a vendor token. -/
structure MemoryPattern where
  vendorToken : String
  category : String
  confidence : ℚ
deriving DecidableEq, Repr

/-- The categorization tier that produced a result. -/
inductive Tier where
  | rule : Tier
  | heuristic : Tier
  | memory : Tier
  | noMatch : Tier
deriving DecidableEq, Repr

/-- A categorization outcome: category, confidence, producing tier and the
matched pattern text. -/
structure CatResult where
  category : String
  confidence : ℚ
  tier : Tier
  matchedPattern : String
deriving DecidableEq, Repr

/-- Modelled from the spec: the Categorization Engine evaluates the rule,
heuristic and memory tiers in strict precedence order, stopping at the
first match; with no match the transaction is Uncategorized with confidence
0.60, below the review threshold. -/
def categorize (rules : List Rule) (memory : List MemoryPattern)
    (desc : String) : CatResult :=
  match findRule rules desc with
  | some r => ⟨r.category, r.confidence, Tier.rule, r.pattern⟩
  | none =>
    match heuristicTable.find? (fun e => isSubstr e.1.toList desc.toList) with
    | some e => ⟨e.2.1, e.2.2, Tier.heuristic, e.1⟩
    | none =>
      match memory.find? (fun m => isSubstr m.vendorToken.toList desc.toList) with
      | some m => ⟨m.category, m.confidence, Tier.memory, m.vendorToken⟩
      | none => ⟨"Uncategorized", mkRat 3 5, Tier.noMatch, ""⟩

/-- A stored, categorized transaction as far as the pipeline invariant is
concerned: its category and confidence. -/
structure StoredTxn where
  category : String
  confidence : ℚ
deriving DecidableEq, Repr

/-- Modelled from the spec: an explicit user correction replaces the
category; the corrected transaction is treated as fully confident. -/
def applyCorrection (t : StoredTxn) (newCat : String) : StoredTxn :=
  { t with category := newCat, confidence := 1 }

/-- Severity of a crisis alert; the specification admits exactly critical,
high and medium. -/
inductive Severity where
  | critical : Severity
  | high : Severity
  | medium : Severity
deriving DecidableEq, Repr

/-- Forecast scenario. -/
inductive ScenarioKind where
  | optimistic : ScenarioKind
  | base : ScenarioKind
  | pessimistic : ScenarioKind
deriving DecidableEq, Repr

/-- Frequency class of a recurring pattern. -/
inductive FreqClass where
  | weekly : FreqClass
  | biweekly : FreqClass
  | monthly : FreqClass
  | irregular : FreqClass
deriving DecidableEq, Repr

/-- A stored categorized transaction as seen by the pattern detector and
the forecast engine: vendor token, category, posting day and signed amount. -/
structure Txn where
  vendor : String
  category : String
  date : Nat
  amount : ℚ
deriving DecidableEq, Repr

/-- Current balance of the account: sum of all stored transactions to date. -/
def currentBalance (txns : List Txn) : ℚ := (txns.map Txn.amount).sum

/-- A detected recurring vendor cash flow. -/
structure RecurringPattern where
  vendorKey : String
  category : String
  avgAmount : ℚ
  freqClass : FreqClass
  intervalDays : Nat
  nextExpected : Nat
  confidence : ℚ
  criticality : ℚ
deriving DecidableEq, Repr

/-- All transactions of one vendor token. -/
def vendorGroup (txns : List Txn) (v : String) : List Txn :=
  txns.filter (fun t => t.vendor == v)

/-- Insert a day number into a sorted list of day numbers. -/
def insertSorted (x : Nat) : List Nat → List Nat
  | [] => [x]
  | y :: ys => if x ≤ y then x :: y :: ys else y :: insertSorted x ys

/-- Sort day numbers ascending. -/
def sortDates (l : List Nat) : List Nat := l.foldr insertSorted []

/-- Consecutive differences of a (sorted) list of day numbers. -/
def deltas : List Nat → List Nat
  | [] => []
  | [_] => []
  | a :: b :: rest => (b - a) :: deltas (b :: rest)

/-- Whether a delta lies within the two-day tolerance window around the
target interval. -/
def withinTol (target d : Nat) : Bool :=
  target - 2 ≤ d && d ≤ target + 2

/-- Modelled from the spec: classify the delta list as weekly, biweekly or
monthly when the deltas cluster inside the tolerance window around 7, 14 or
30 days, else irregular; returns the class and its typical interval. -/
def classifyDeltas (ds : List Nat) : FreqClass × Nat :=
  if ds.all (withinTol 7) then (FreqClass.weekly, 7)
  else if ds.all (withinTol 14) then (FreqClass.biweekly, 14)
  else if ds.all (withinTol 30) then (FreqClass.monthly, 30)
  else (FreqClass.irregular, 0)

/-- Fraction of the deltas inside the tolerance window around the target. -/
def fracWithin (target : Nat) (ds : List Nat) : ℚ :=
  if ds.length = 0 then 0
  else mkRat ((ds.filter (withinTol target)).length : Int) ds.length

/-- Mean amount of a transaction group. -/
def avgAmount (group : List Txn) : ℚ :=
  if group.length = 0 then 0
  else ((group.map Txn.amount).sum) / (group.length : ℚ)

/-- Category of a group, read off its first member. -/
def groupCategory (group : List Txn) : String :=
  match group with
  | [] => "Uncategorized"
  | t :: _ => t.category

/-- Modelled from the spec: category classes near 1.0 for payroll, rent and
debt service, near 0.3 for discretionary spend. -/
def categoryWeight (cat : String) : ℚ :=
  if cat == "Payroll" || cat == "Rent" || cat == "Debt Service" then 1
  else mkRat 3 10

/-- Modelled from the spec: build the RecurringPattern of a vendor group
with at least three occurrences: inter-transaction deltas, frequency class,
mean amount, next expected date = last occurrence plus the typical
interval, confidence = fraction of deltas within tolerance, criticality
combining the category weight with the pattern confidence. -/
def mkPattern (v : String) (group : List Txn) : RecurringPattern :=
  let dates := sortDates (group.map Txn.date)
  let ds := deltas dates
  let cls := classifyDeltas ds
  let conf := if cls.1 = FreqClass.irregular then 0 else fracWithin cls.2 ds
  { vendorKey := v
    category := groupCategory group
    avgAmount := avgAmount group
    freqClass := cls.1
    intervalDays := cls.2
    nextExpected := (dates.getLast?).getD 0 + cls.2
    confidence := conf
    criticality := categoryWeight (groupCategory group) * conf }

/-- Modelled from the spec: the Recurring Pattern Detector groups the
stored transactions by vendor token and emits a pattern only for groups
with at least three occurrences. -/
def detectPatterns (txns : List Txn) : List RecurringPattern :=
  ((txns.map Txn.vendor).dedup).filterMap (fun v =>
    let group := vendorGroup txns v
    if group.length < 3 then none else some (mkPattern v group))

/-- Modelled from the spec: scenario multipliers scale inflows and outflows
asymmetrically: optimistic takes revenue times 1.15 and expense times 0.95,
pessimistic takes revenue times 0.85 and expense times 1.10, base leaves
both unscaled. -/
def scenarioScale (sc : ScenarioKind) (amount : ℚ) : ℚ :=
  match sc with
  | ScenarioKind.base => amount
  | ScenarioKind.optimistic =>
      if 0 ≤ amount then amount * mkRat 23 20 else amount * mkRat 19 20
  | ScenarioKind.pessimistic =>
      if 0 ≤ amount then amount * mkRat 17 20 else amount * mkRat 11 10

/-- Whether a pattern has a projected occurrence on the given day offset:
the day is at or after the next expected date and on the interval grid. -/
def occursOn (p : RecurringPattern) (day : Nat) : Bool :=
  p.intervalDays != 0 && p.nextExpected ≤ day
    && (day - p.nextExpected) % p.intervalDays == 0

/-- Net scenario-scaled flow a forecast adds on one day: the projected
recurring occurrences plus the smoothed daily trend term. -/
def dayFlow (sc : ScenarioKind) (patterns : List RecurringPattern) (trend : ℚ)
    (day : Nat) : ℚ :=
  ((patterns.filter (fun p => occursOn p day)).map
      (fun p => scenarioScale sc p.avgAmount)).sum
    + scenarioScale sc trend

/-- Projected balance after the flows of days 1 to d have been applied to
the starting balance; day 0 is the starting balance itself. -/
def balanceAt (start : ℚ) (flow : Nat → ℚ) : Nat → ℚ
  | 0 => start
  | d + 1 => balanceAt start flow d + flow (d + 1)

/-- One daily forecast projection. -/
structure Projection where
  dayOffset : Nat
  balance : ℚ
deriving DecidableEq, Repr

/-- The daily projections over a horizon of the given number of days,
day 0 through the last day. -/
def dailyProjections (start : ℚ) (flow : Nat → ℚ) (horizonDays : Nat) :
    List Projection :=
  (List.range (horizonDays + 1)).map (fun d => ⟨d, balanceAt start flow d⟩)

/-- Severity bucket of a breach day offset: at most 7 days critical, at
most 14 days high, else medium. -/
def severityFor (dayOffset : Nat) : Severity :=
  if dayOffset ≤ 7 then Severity.critical
  else if dayOffset ≤ 14 then Severity.high
  else Severity.medium

/-- A crisis alert: breach day offset, severity and projected balance. -/
structure CrisisAlert where
  dayOffset : Nat
  severity : Severity
  projectedBalance : ℚ
deriving DecidableEq, Repr

/-- Modelled from the spec: scan the projections; the first day whose
projected balance is below the crisis threshold yields one alert whose
severity is its day-offset bucket; no breach, no alert. -/
def detectCrisis (threshold : ℚ) (projs : List Projection) :
    List CrisisAlert :=
  match projs.find? (fun p => decide (p.balance < threshold)) with
  | none => []
  | some p => [⟨p.dayOffset, severityFor p.dayOffset, p.balance⟩]

/-- Total magnitude of the recurring flows a pattern set explains. -/
def patternFlowMagnitude (patterns : List RecurringPattern) : ℚ :=
  (patterns.map (fun p => |p.avgAmount|)).sum

/-- Modelled from the spec: forecast-level confidence is the proportion of
projected flow attributable to recognized recurring patterns against the
unexplained trend residual; it is zero, the lowest value, when no pattern
is recognized. -/
def forecastConfidence (patterns : List RecurringPattern) (trend : ℚ) : ℚ :=
  if patternFlowMagnitude patterns + |trend| = 0 then 0
  else patternFlowMagnitude patterns / (patternFlowMagnitude patterns + |trend|)

/-- Modelled from the spec: the smoothed daily trend term, the mean of the
net flow of transactions not attributed to a recurring pattern. -/
def trendTerm (txns : List Txn) (patterns : List RecurringPattern) : ℚ :=
  let residual := txns.filter
    (fun t => !((patterns.map RecurringPattern.vendorKey).contains t.vendor))
  if residual.length = 0 then 0
  else ((residual.map Txn.amount).sum) / (residual.length : ℚ)

/-- The structured result of one forecast request. -/
structure ForecastResult where
  currentCash : ℚ
  projections : List Projection
  alerts : List CrisisAlert
  patterns : List RecurringPattern
  confidence : ℚ
deriving Repr

/-- Modelled from the spec: the Forecast Engine validates the horizon
against the set of 4, 6 and 8 weeks before computing anything, starts the
projection at the current balance, walks one day at a time over the
horizon adding scenario-scaled recurring occurrences and the trend term,
and scans the projections for a crisis breach. -/
def forecast (txns : List Txn) (weeks : Nat) (sc : ScenarioKind)
    (threshold : ℚ) : Except String ForecastResult :=
  if weeks = 4 ∨ weeks = 6 ∨ weeks = 8 then
    let pats := (detectPatterns txns).filter
      (fun p => !(p.freqClass == FreqClass.irregular))
    let start := currentBalance txns
    let trend := trendTerm txns pats
    let projs := dailyProjections start (dayFlow sc pats trend) (7 * weeks)
    Except.ok
      { currentCash := start
        projections := projs
        alerts := detectCrisis threshold projs
        patterns := pats
        confidence := forecastConfidence pats trend }
  else Except.error "InvalidForecastParameters"

lemma confidenceBadge_some (c : ℚ) :
    confidenceBadge (some c)
      = Badge.labeled (getConfidenceLabel c) (jsRound (c * 100)) := by
  simp [confidenceBadge]

lemma getConfidenceLabel_spec (c : ℚ) :
    (getConfidenceLabel c = "High" ↔ mkRat 95 100 ≤ c)
    ∧ (getConfidenceLabel c = "Good" ↔ mkRat 85 100 ≤ c ∧ c < mkRat 95 100)
    ∧ (getConfidenceLabel c = "Medium" ↔ mkRat 75 100 ≤ c ∧ c < mkRat 85 100)
    ∧ (getConfidenceLabel c = "Low" ↔ c < mkRat 75 100) := by
  unfold getConfidenceLabel
  split_ifs with h1 h2 h3
  · refine ⟨iff_of_true rfl h1, ?_, ?_, ?_⟩
    · exact iff_of_false (by decide)
        (fun h => absurd (lt_of_le_of_lt h1 h.2) (by decide))
    · exact iff_of_false (by decide)
        (fun h => absurd (lt_of_le_of_lt h1 h.2) (by decide))
    · exact iff_of_false (by decide)
        (fun h => absurd (lt_of_le_of_lt h1 h) (by decide))
  · refine ⟨iff_of_false (by decide) h1, iff_of_true rfl ⟨h2, not_le.mp h1⟩, ?_, ?_⟩
    · exact iff_of_false (by decide)
        (fun h => absurd (lt_of_le_of_lt h2 h.2) (by decide))
    · exact iff_of_false (by decide)
        (fun h => absurd (lt_of_le_of_lt h2 h) (by decide))
  · refine ⟨iff_of_false (by decide) h1, ?_, iff_of_true rfl ⟨h3, not_le.mp h2⟩, ?_⟩
    · exact iff_of_false (by decide) (fun h => h2 h.1)
    · exact iff_of_false (by decide)
        (fun h => absurd (lt_of_le_of_lt h3 h) (by decide))
  · refine ⟨iff_of_false (by decide) h1, ?_, ?_, iff_of_true rfl (not_le.mp h3)⟩
    · exact iff_of_false (by decide) (fun h => h2 h.1)
    · exact iff_of_false (by decide) (fun h => h3 h.1)

/-- Claim C10: the confidence badge is total over its input: a numeric
confidence c renders label High iff c is at least 0.95, Good iff c is in
[0.85, 0.95), Medium iff c is in [0.75, 0.85) and Low iff c is below 0.75;
a null or undefined confidence renders the Unknown badge, while a
confidence of exactly 0 renders the Low badge at 0 percent rather than
Unknown. -/
theorem confidence_badge_total :
    confidenceBadge none = Badge.unknown
    ∧ confidenceBadge (some 0) = Badge.labeled "Low" 0
    ∧ ∀ c : ℚ,
        (badgeLabel (confidenceBadge (some c)) = some "High"
          ↔ mkRat 95 100 ≤ c)
        ∧ (badgeLabel (confidenceBadge (some c)) = some "Good"
          ↔ mkRat 85 100 ≤ c ∧ c < mkRat 95 100)
        ∧ (badgeLabel (confidenceBadge (some c)) = some "Medium"
          ↔ mkRat 75 100 ≤ c ∧ c < mkRat 85 100)
        ∧ (badgeLabel (confidenceBadge (some c)) = some "Low"
          ↔ c < mkRat 75 100) := by
  refine ⟨rfl, ?_, ?_⟩
  · rw [confidenceBadge_some]
    have h1 : getConfidenceLabel 0 = "Low" :=
      (getConfidenceLabel_spec 0).2.2.2.mpr (by decide)
    have h2 : jsRound ((0 : ℚ) * 100) = 0 := by
      have hz : (0 : ℚ) * 100 = 0 := zero_mul 100
      rw [hz]
      show ⌊(0 : ℚ) + mkRat 1 2⌋ = 0
      rw [zero_add]
      decide
    rw [h1, h2]
  · intro c
    rw [confidenceBadge_some]
    simp only [badgeLabel, Option.some.injEq]
    exact getConfidenceLabel_spec c

/-- Witness for claim C10: a confidence of 0.96 renders the High label, a
missing confidence the Unknown badge, and a zero confidence the Low badge
at 0 percent. -/
theorem confidence_badge_total_witness :
    badgeLabel (confidenceBadge (some (mkRat 96 100))) = some "High"
    ∧ confidenceBadge none = Badge.unknown
    ∧ confidenceBadge (some 0) = Badge.labeled "Low" 0 :=
  ⟨(confidence_badge_total.2.2 (mkRat 96 100)).1.mpr (by decide),
   confidence_badge_total.1, confidence_badge_total.2.1⟩

/-- Claim C9: the upload handler issues the POST to /api/ingest exactly
for files whose lower-cased name ends in .csv and whose size is at most
20971520 bytes; a file failing either check gets an error status and no
network request is made. -/
theorem handleFileUpload_validates (f : UploadFile) :
    (handleFileUpload f = UploadAction.post "/api/ingest"
      ↔ endsWithL (lowerStr f.name) ".csv".toList = true ∧ f.size ≤ 20971520)
    ∧ (endsWithL (lowerStr f.name) ".csv".toList = false ∨ 20971520 < f.size →
        ∃ m, handleFileUpload f = UploadAction.errorStatus m) := by
  unfold handleFileUpload
  split_ifs with hA hB
  · have hA2 : endsWithL (lowerStr f.name) ".csv".toList = false := by
      revert hA; cases endsWithL (lowerStr f.name) ".csv".toList <;> simp
    refine ⟨⟨fun h => absurd h (by simp), fun h => ?_⟩,
      fun _ => ⟨_, rfl⟩⟩
    rw [h.1] at hA2
    cases hA2
  · refine ⟨⟨fun h => absurd h (by simp), fun h => ?_⟩,
      fun _ => ⟨_, rfl⟩⟩
    exact absurd h.2 (by omega)
  · have hA2 : endsWithL (lowerStr f.name) ".csv".toList = true := by
      revert hA; cases endsWithL (lowerStr f.name) ".csv".toList <;> simp
    refine ⟨⟨fun _ => ⟨hA2, by omega⟩, fun _ => rfl⟩, ?_⟩
    rintro (hb | hs)
    · rw [hA2] at hb; cases hb
    · omega

/-- Witness for claim C9: an upper-case .CSV name of 1 KB is POSTed, a .txt
name gets an error status, and a .csv file one byte above 20 MB gets an
error status. -/
theorem handleFileUpload_validates_witness :
    handleFileUpload ⟨"Transactions.CSV", 1024⟩ = UploadAction.post "/api/ingest"
    ∧ (∃ m, handleFileUpload ⟨"transactions.txt", 1024⟩
          = UploadAction.errorStatus m)
    ∧ (∃ m, handleFileUpload ⟨"big.csv", 20971521⟩
          = UploadAction.errorStatus m) :=
  ⟨(handleFileUpload_validates ⟨"Transactions.CSV", 1024⟩).1.mpr (by decide),
   (handleFileUpload_validates ⟨"transactions.txt", 1024⟩).2 (Or.inl (by decide)),
   (handleFileUpload_validates ⟨"big.csv", 20971521⟩).2 (Or.inr (by decide))⟩

/-- Claim C8: the forecast client sends the weeks query parameter equal to
max(4, min(weeks, 8)): every issued value lies in [4, 8], so out-of-range
values are silently clamped rather than rejected, the intermediate values
5 and 7 are forwarded unchanged, and the scenario is forwarded as given. -/
theorem getForecast_clamps_weeks (w : Int) (s : String) :
    (getForecastRequest w s).weeks = max 4 (min w 8)
    ∧ 4 ≤ (getForecastRequest w s).weeks
    ∧ (getForecastRequest w s).weeks ≤ 8
    ∧ (getForecastRequest 5 s).weeks = 5
    ∧ (getForecastRequest 7 s).weeks = 7
    ∧ (getForecastRequest w s).scenarioParam = s := by
  refine ⟨rfl, le_max_left 4 _, ?_, ?_, ?_, rfl⟩
  · exact max_le (by norm_num) (min_le_right w 8)
  · show max (4 : Int) (min 5 8) = 5
    decide
  · show max (4 : Int) (min 7 8) = 7
    decide

/-- Claim C3 counterexample: a forecast request with horizon 5, outside
the allowed set of 4, 6 and 8 weeks, is not rejected with a validation
error: the client issues the request with weeks equal to 5; a horizon of
10 is silently clamped to 8 and issued, together with an unvalidated
scenario string. -/
theorem getForecast_no_validation_counterexample :
    (getForecastRequest 5 "base").weeks = 5
    ∧ ¬((getForecastRequest 5 "base").weeks = 4
        ∨ (getForecastRequest 5 "base").weeks = 6
        ∨ (getForecastRequest 5 "base").weeks = 8)
    ∧ getForecastRequest 10 "bogus" = { weeks := 8, scenarioParam := "bogus" }
    ∧ ∃ res, forecast [] (getForecastRequest 10 "base").weeks.toNat
        ScenarioKind.base (10000 : ℚ) = Except.ok res := by
  refine ⟨by decide, by decide, by decide, ?_⟩
  have hw8 : (getForecastRequest 10 "base").weeks.toNat = 8 := by decide
  rw [hw8]
  unfold forecast
  rw [if_pos (Or.inr (Or.inr rfl))]
  exact ⟨_, rfl⟩

/-- Claim C3 (amended): the forecast client rejects no parameters; for
every weeks value and scenario it issues a request whose weeks is clamped
into [4, 8] by max(4, min(weeks, 8)) — in particular the in-range values
5 and 7, though outside the set of 4, 6 and 8, pass through unchanged —
and whose scenario is forwarded without validation. -/
theorem getForecast_always_requests (w : Int) (s : String) :
    4 ≤ (getForecastRequest w s).weeks
    ∧ (getForecastRequest w s).weeks ≤ 8
    ∧ (4 ≤ w → w ≤ 8 → (getForecastRequest w s).weeks = w)
    ∧ (getForecastRequest w s).scenarioParam = s := by
  refine ⟨le_max_left 4 _, max_le (by norm_num) (min_le_right w 8), ?_, rfl⟩
  intro hl hu
  show max 4 (min w 8) = w
  rw [min_eq_left hu, max_eq_right hl]

/-- Witness for the amended claim C3 at weeks 5: the request is issued
with weeks exactly 5, inside [4, 8]. -/
theorem getForecast_always_requests_witness :
    4 ≤ (getForecastRequest 5 "base").weeks
    ∧ (getForecastRequest 5 "base").weeks ≤ 8
    ∧ (getForecastRequest 5 "base").weeks = 5
    ∧ (getForecastRequest 5 "base").scenarioParam = "base" := by
  have h := getForecast_always_requests 5 "base"
  exact ⟨h.1, h.2.1, h.2.2.1 (by decide) (by decide), h.2.2.2⟩

/-- The registered fingerprints of a store. -/
def fps (st : Store) : List Fingerprint := st.txns.map fingerprint

lemma seen_iff (st : Store) (fp : Fingerprint) :
    seen st fp = true ↔ fp ∈ fps st := by
  simp [seen, fps]

lemma fps_ingestOne_mono (st : Store) (c : Candidate) (fp : Fingerprint)
    (h : fp ∈ fps st) : fp ∈ fps (ingestOne st c).1 := by
  unfold ingestOne
  split_ifs with hs
  · exact h
  · show fp ∈ (st.txns ++ [c]).map fingerprint
    rw [List.map_append]
    exact List.mem_append_left _ h

lemma fps_ingestOne_self (st : Store) (c : Candidate) :
    fingerprint c ∈ fps (ingestOne st c).1 := by
  unfold ingestOne
  split_ifs with hs
  · exact (seen_iff st (fingerprint c)).mp hs
  · show fingerprint c ∈ (st.txns ++ [c]).map fingerprint
    rw [List.map_append]
    exact List.mem_append_right _ (by simp)

lemma fps_ingestFile_mono (rows : List Candidate) :
    ∀ (st : Store) (fp : Fingerprint), fp ∈ fps st →
      fp ∈ fps (ingestFile st rows).1 := by
  induction rows with
  | nil => intro st fp h; exact h
  | cons c rest ih =>
    intro st fp h
    show fp ∈ fps (let step := ingestOne st c
      let tail := ingestFile step.1 rest
      if step.2 then (tail.1, tail.2.1 + 1, tail.2.2)
      else (tail.1, tail.2.1, tail.2.2 + 1)).1
    by_cases hs : (ingestOne st c).2
    · simp only [hs, if_true]
      exact ih _ _ (fps_ingestOne_mono st c fp h)
    · simp only [hs, if_false]
      exact ih _ _ (fps_ingestOne_mono st c fp h)

lemma fps_ingestFile_all (rows : List Candidate) :
    ∀ (st : Store) (c : Candidate), c ∈ rows →
      fingerprint c ∈ fps (ingestFile st rows).1 := by
  induction rows with
  | nil => intro st c h; cases h
  | cons d rest ih =>
    intro st c h
    show fingerprint c ∈ fps (let step := ingestOne st d
      let tail := ingestFile step.1 rest
      if step.2 then (tail.1, tail.2.1 + 1, tail.2.2)
      else (tail.1, tail.2.1, tail.2.2 + 1)).1
    rcases List.mem_cons.mp h with rfl | hmem
    · by_cases hs : (ingestOne st c).2
      · simp only [hs, if_true]
        exact fps_ingestFile_mono rest _ _ (fps_ingestOne_self st c)
      · simp only [hs, if_false]
        exact fps_ingestFile_mono rest _ _ (fps_ingestOne_self st c)
    · by_cases hs : (ingestOne st d).2
      · simp only [hs, if_true]
        exact ih _ c hmem
      · simp only [hs, if_false]
        exact ih _ c hmem

lemma ingestFile_all_dup (rows : List Candidate) :
    ∀ st : Store, (∀ c ∈ rows, fingerprint c ∈ fps st) →
      ingestFile st rows = (st, 0, rows.length) := by
  induction rows with
  | nil => intro st _; rfl
  | cons c rest ih =>
    intro st h
    have hseen : seen st (fingerprint c) = true :=
      (seen_iff st (fingerprint c)).mpr (h c (List.mem_cons_self c rest))
    have hstep : ingestOne st c = (st, false) := by
      unfold ingestOne
      rw [if_pos hseen]
    show (let step := ingestOne st c
      let tail := ingestFile step.1 rest
      if step.2 then (tail.1, tail.2.1 + 1, tail.2.2)
      else (tail.1, tail.2.1, tail.2.2 + 1)) = (st, 0, rest.length + 1)
    rw [hstep]
    have htail : ingestFile st rest = (st, 0, rest.length) :=
      ih st (fun d hd => h d (List.mem_cons_of_mem c hd))
    simp only [htail]
    rfl

lemma fps_ingestOne_nodup (st : Store) (c : Candidate)
    (h : (fps st).Nodup) : (fps (ingestOne st c).1).Nodup := by
  unfold ingestOne
  split_ifs with hs
  · exact h
  · have hnot : fingerprint c ∉ fps st := by
      intro hmem
      exact hs ((seen_iff st (fingerprint c)).mpr hmem)
    show ((st.txns ++ [c]).map fingerprint).Nodup
    rw [List.map_append]
    rw [List.nodup_append]
    refine ⟨h, List.nodup_singleton _, ?_⟩
    intro fp hfp hfpc
    rw [show ([c].map fingerprint) = [fingerprint c] from rfl,
      List.mem_singleton] at hfpc
    exact hnot (hfpc ▸ hfp)

lemma fps_ingestFile_nodup (rows : List Candidate) :
    ∀ st : Store, (fps st).Nodup → (fps (ingestFile st rows).1).Nodup := by
  induction rows with
  | nil => intro st h; exact h
  | cons c rest ih =>
    intro st h
    show (fps (let step := ingestOne st c
      let tail := ingestFile step.1 rest
      if step.2 then (tail.1, tail.2.1 + 1, tail.2.2)
      else (tail.1, tail.2.1, tail.2.2 + 1)).1).Nodup
    by_cases hs : (ingestOne st c).2
    · simp only [hs, if_true]
      exact ih _ (fps_ingestOne_nodup st c h)
    · simp only [hs, if_false]
      exact ih _ (fps_ingestOne_nodup st c h)

/-- Claim C1: upload ingestion is idempotent with respect to duplicates:
re-ingesting the same rows immediately after a first pass imports nothing
and counts every row of the file as a duplicate, and the store keeps at
most one transaction per fingerprint — for the second pass, and for any
upload applied to a store that satisfies the uniqueness invariant. -/
theorem upload_ingestion_idempotent (st : Store) (rows : List Candidate)
    (h : (fps st).Nodup) :
    (ingestFile (ingestFile st rows).1 rows).2.1 = 0
    ∧ (ingestFile (ingestFile st rows).1 rows).2.2 = rows.length
    ∧ (fps (ingestFile (ingestFile st rows).1 rows).1).Nodup
    ∧ ∀ otherRows : List Candidate,
        (fps (ingestFile st otherRows).1).Nodup := by
  have hall : ∀ c ∈ rows, fingerprint c ∈ fps (ingestFile st rows).1 :=
    fun c hc => fps_ingestFile_all rows st c hc
  have hsec : ingestFile (ingestFile st rows).1 rows
      = ((ingestFile st rows).1, 0, rows.length) :=
    ingestFile_all_dup rows (ingestFile st rows).1 hall
  rw [hsec]
  exact ⟨rfl, rfl, fps_ingestFile_nodup rows st h,
    fun otherRows => fps_ingestFile_nodup otherRows st h⟩

/-- Witness for claim C1: ingesting one concrete row twice into an empty
store imports it once; the second pass imports zero rows and counts one
duplicate, and the fingerprints stay unique. -/
theorem upload_ingestion_idempotent_witness :
    (ingestFile
        (ingestFile ⟨[]⟩ [⟨"acct", 1, -15000, "office supplies"⟩]).1
        [⟨"acct", 1, -15000, "office supplies"⟩]).2.1 = 0
    ∧ (ingestFile
        (ingestFile ⟨[]⟩ [⟨"acct", 1, -15000, "office supplies"⟩]).1
        [⟨"acct", 1, -15000, "office supplies"⟩]).2.2
      = [(⟨"acct", 1, -15000, "office supplies"⟩ : Candidate)].length
    ∧ (fps (ingestFile
        (ingestFile ⟨[]⟩ [⟨"acct", 1, -15000, "office supplies"⟩]).1
        [⟨"acct", 1, -15000, "office supplies"⟩]).1).Nodup := by
  have h := upload_ingestion_idempotent ⟨[]⟩
    [⟨"acct", 1, -15000, "office supplies"⟩] (by decide)
  exact ⟨h.1, h.2.1, h.2.2.1⟩

lemma betterRule_or (a b : Rule) :
    betterRule a b = a ∨ betterRule a b = b := by
  unfold betterRule
  split_ifs <;> simp

lemma foldl_betterRule_mem (rs : List Rule) :
    ∀ r : Rule, rs.foldl betterRule r ∈ r :: rs := by
  induction rs with
  | nil => intro r; simp
  | cons b bs ih =>
    intro r
    have h := ih (betterRule r b)
    show bs.foldl betterRule (betterRule r b) ∈ r :: b :: bs
    rcases List.mem_cons.mp h with he | hm
    · rcases betterRule_or r b with h1 | h1
      · rw [he, h1]
        exact List.mem_cons_self _ _
      · rw [he, h1]
        exact List.mem_cons_of_mem _ (List.mem_cons_self _ _)
    · exact List.mem_cons_of_mem _ (List.mem_cons_of_mem _ hm)

lemma findRule_some_of_matches (rules : List Rule) (desc : String)
    (r : Rule) (hr : r ∈ rules) (hm : ruleMatches r desc = true) :
    ∃ r2, findRule rules desc = some r2 ∧ r2 ∈ rules
      ∧ ruleMatches r2 desc = true := by
  have hrf : r ∈ rules.filter (fun x => ruleMatches x desc) :=
    List.mem_filter.mpr ⟨hr, hm⟩
  unfold findRule
  cases hfl : rules.filter (fun x => ruleMatches x desc) with
  | nil => rw [hfl] at hrf; cases hrf
  | cons a as =>
    have hmem : as.foldl betterRule a ∈ a :: as := foldl_betterRule_mem as a
    rw [← hfl] at hmem
    have h2 := List.mem_filter.mp hmem
    exact ⟨_, rfl, h2.1, h2.2⟩

lemma findRule_mem (rules : List Rule) (desc : String) (r2 : Rule)
    (h : findRule rules desc = some r2) :
    r2 ∈ rules ∧ ruleMatches r2 desc = true := by
  unfold findRule at h
  cases hfl : rules.filter (fun x => ruleMatches x desc) with
  | nil => rw [hfl] at h; cases h
  | cons a as =>
    rw [hfl] at h
    have hmem : as.foldl betterRule a ∈ a :: as := foldl_betterRule_mem as a
    rw [← hfl] at hmem
    have hflt := List.mem_filter.mp hmem
    have heq : as.foldl betterRule a = r2 := by injection h
    rw [heq] at hflt
    exact ⟨hflt.1, hflt.2⟩

/-- Claim C4: a description matching a user Rule is categorized by the
rule tier: the result has tier rule with category and confidence taken
from a matching rule, overriding the heuristic and memory tiers — the
result does not depend on the memory patterns at all, so it is independent
of whether a learned pattern existed before or after the rule. -/
theorem rule_tier_precedence (rules : List Rule)
    (memory : List MemoryPattern) (desc : String) (r : Rule)
    (hr : r ∈ rules) (hm : ruleMatches r desc = true) :
    (categorize rules memory desc).tier = Tier.rule
    ∧ (∃ r2 ∈ rules, ruleMatches r2 desc = true
        ∧ (categorize rules memory desc).category = r2.category
        ∧ (categorize rules memory desc).confidence = r2.confidence)
    ∧ ∀ memory2 : List MemoryPattern,
        categorize rules memory2 desc = categorize rules memory desc := by
  obtain ⟨r2, hf, hr2, hm2⟩ := findRule_some_of_matches rules desc r hr hm
  unfold categorize
  rw [hf]
  exact ⟨rfl, ⟨r2, hr2, hm2, rfl, rfl⟩, fun memory2 => rfl⟩

/-- Witness for claim C4: with a contains rule for starbucks and a
conflicting learned memory pattern, the description starbucks #123 is
categorized by the rule tier with the rule category and confidence. -/
theorem rule_tier_precedence_witness :
    (categorize
      [⟨"starbucks", MatchType.contains, "Meals and Entertainment",
        mkRat 9 10, 1⟩]
      [⟨"starbucks", "Coffee Shops", mkRat 95 100⟩]
      "starbucks #123").tier = Tier.rule
    ∧ (categorize
      [⟨"starbucks", MatchType.contains, "Meals and Entertainment",
        mkRat 9 10, 1⟩]
      [⟨"starbucks", "Coffee Shops", mkRat 95 100⟩]
      "starbucks #123").category = "Meals and Entertainment"
    ∧ (categorize
      [⟨"starbucks", MatchType.contains, "Meals and Entertainment",
        mkRat 9 10, 1⟩]
      [⟨"starbucks", "Coffee Shops", mkRat 95 100⟩]
      "starbucks #123").confidence = mkRat 9 10 :=
  ⟨(rule_tier_precedence
      [⟨"starbucks", MatchType.contains, "Meals and Entertainment",
        mkRat 9 10, 1⟩]
      [⟨"starbucks", "Coffee Shops", mkRat 95 100⟩]
      "starbucks #123"
      ⟨"starbucks", MatchType.contains, "Meals and Entertainment",
        mkRat 9 10, 1⟩
      (by decide) (by decide)).1,
   by decide, by decide⟩

/-- Claim C6: under valid rule and memory stores, every categorization
result and every corrected transaction has confidence inside [0, 1] and a
non-empty category — the invariant holds after ingestion-time
categorization, rule application and user correction. -/
theorem pipeline_confidence_invariant (rules : List Rule)
    (memory : List MemoryPattern) (desc : String)
    (hr : ∀ r ∈ rules, 0 ≤ r.confidence ∧ r.confidence ≤ 1 ∧ r.category ≠ "")
    (hm : ∀ m ∈ memory,
      0 ≤ m.confidence ∧ m.confidence ≤ 1 ∧ m.category ≠ "") :
    (0 ≤ (categorize rules memory desc).confidence
      ∧ (categorize rules memory desc).confidence ≤ 1
      ∧ (categorize rules memory desc).category ≠ "")
    ∧ ∀ (t : StoredTxn) (newCat : String), newCat ≠ "" →
        0 ≤ (applyCorrection t newCat).confidence
        ∧ (applyCorrection t newCat).confidence ≤ 1
        ∧ (applyCorrection t newCat).category ≠ "" := by
  constructor
  · unfold categorize
    cases hf : findRule rules desc with
    | some r =>
      obtain ⟨hrm, _⟩ := findRule_mem rules desc r hf
      exact hr r hrm
    | none =>
      cases hh : heuristicTable.find?
          (fun e => isSubstr e.1.toList desc.toList) with
      | some e =>
        have he : e ∈ heuristicTable := List.mem_of_find?_eq_some hh
        have hall : ∀ e2 ∈ heuristicTable,
            0 ≤ e2.2.2 ∧ e2.2.2 ≤ 1 ∧ e2.2.1 ≠ "" := by decide
        exact hall e he
      | none =>
        cases hmm : memory.find?
            (fun m => isSubstr m.vendorToken.toList desc.toList) with
        | some m =>
          exact hm m (List.mem_of_find?_eq_some hmm)
        | none =>
          exact ⟨by decide, by decide, by decide⟩
  · intro t newCat hne
    refine ⟨?_, ?_, hne⟩
    · show (0 : ℚ) ≤ 1
      decide
    · show (1 : ℚ) ≤ 1
      decide

/-- Witness for claim C6: a concrete valid rule store, an empty memory
store and one correction are evaluated at concrete inputs. -/
theorem pipeline_confidence_invariant_witness :
    (0 ≤ (categorize
        [⟨"acme", MatchType.contains, "Software", mkRat 9 10, 1⟩]
        [] "acme tools").confidence
      ∧ (categorize
        [⟨"acme", MatchType.contains, "Software", mkRat 9 10, 1⟩]
        [] "acme tools").confidence ≤ 1
      ∧ (categorize
        [⟨"acme", MatchType.contains, "Software", mkRat 9 10, 1⟩]
        [] "acme tools").category ≠ "")
    ∧ (0 ≤ (applyCorrection ⟨"Old", mkRat 1 2⟩ "Travel").confidence
      ∧ (applyCorrection ⟨"Old", mkRat 1 2⟩ "Travel").confidence ≤ 1
      ∧ (applyCorrection ⟨"Old", mkRat 1 2⟩ "Travel").category ≠ "") := by
  have h := pipeline_confidence_invariant
    [⟨"acme", MatchType.contains, "Software", mkRat 9 10, 1⟩]
    [] "acme tools" (by decide) (by decide)
  exact ⟨h.1, h.2 ⟨"Old", mkRat 1 2⟩ "Travel" (by decide)⟩

lemma severityFor_spec (d : Nat) :
    (d ≤ 7 → severityFor d = Severity.critical)
    ∧ (7 < d → d ≤ 14 → severityFor d = Severity.high)
    ∧ (14 < d → severityFor d = Severity.medium) := by
  unfold severityFor
  split_ifs with h1 h2
  · exact ⟨fun _ => rfl, fun h _ => absurd h1 (by omega),
      fun h => absurd h1 (by omega)⟩
  · exact ⟨fun h => absurd h h1, fun _ _ => rfl,
      fun h => absurd h2 (by omega)⟩
  · exact ⟨fun h => absurd h h1, fun _ h => absurd h h2, fun _ => rfl⟩

/-- Claim C2: a crisis alert is emitted iff some day of the horizon has a
projected balance below the crisis threshold; every emitted alert sits on a
breach day, its severity is exactly the day-offset bucket — at most 7 days
critical, at most 14 days high, else medium — and the alerts of a forecast
result are exactly the crisis scan of its own projections. -/
theorem crisis_alert_correct (threshold : ℚ) (projs : List Projection) :
    (detectCrisis threshold projs ≠ [] ↔ ∃ p ∈ projs, p.balance < threshold)
    ∧ (∀ a ∈ detectCrisis threshold projs,
        a.severity = severityFor a.dayOffset
        ∧ (a.dayOffset ≤ 7 → a.severity = Severity.critical)
        ∧ (7 < a.dayOffset → a.dayOffset ≤ 14 → a.severity = Severity.high)
        ∧ (14 < a.dayOffset → a.severity = Severity.medium)
        ∧ ∃ p ∈ projs, p.balance < threshold ∧ a.dayOffset = p.dayOffset
            ∧ a.projectedBalance = p.balance)
    ∧ ∀ (txns : List Txn) (weeks : Nat) (sc : ScenarioKind)
        (res : ForecastResult),
        forecast txns weeks sc threshold = Except.ok res →
        res.alerts = detectCrisis threshold res.projections := by
  refine ⟨?_, ?_, ?_⟩
  · unfold detectCrisis
    cases hf : projs.find? (fun p => decide (p.balance < threshold)) with
    | none =>
      constructor
      · intro h; exact absurd rfl h
      · rintro ⟨p, hp, hlt⟩ _
        have := List.find?_eq_none.mp hf p hp
        exact this (decide_eq_true hlt)
    | some p =>
      constructor
      · intro _
        have hps := List.find?_some hf
        exact ⟨p, List.mem_of_find?_eq_some hf, of_decide_eq_true hps⟩
      · intro _ h
        cases h
  · intro a ha
    unfold detectCrisis at ha
    cases hf : projs.find? (fun p => decide (p.balance < threshold)) with
    | none => rw [hf] at ha; cases ha
    | some p =>
      rw [hf] at ha
      rw [List.mem_singleton] at ha
      subst ha
      have hmem := List.mem_of_find?_eq_some hf
      have hps := List.find?_some hf
      have hlt := of_decide_eq_true hps
      have hs := severityFor_spec p.dayOffset
      exact ⟨rfl, fun h => hs.1 h, fun h1 h2 => hs.2.1 h1 h2,
        fun h => hs.2.2 h, p, hmem, hlt, rfl, rfl⟩
  · intro txns weeks sc res h
    unfold forecast at h
    split_ifs at h with hw
    injection h with h2
    rw [← h2]

/-- Witness for claim C2: with threshold 10000 and projections at days 0
and 3, where day 3 dips to 9000, an alert is emitted, the breach day
exists, and the emitted alert at day 3 is critical. -/
theorem crisis_alert_correct_witness :
    detectCrisis (10000 : ℚ) [⟨0, 12000⟩, ⟨3, 9000⟩] ≠ []
    ∧ (∃ p ∈ [(⟨0, 12000⟩ : Projection), ⟨3, 9000⟩],
        p.balance < (10000 : ℚ))
    ∧ (⟨3, Severity.critical, (9000 : ℚ)⟩ : CrisisAlert).severity
        = Severity.critical := by
  have h := crisis_alert_correct (10000 : ℚ) [⟨0, 12000⟩, ⟨3, 9000⟩]
  refine ⟨?_, ?_, ?_⟩
  · exact h.1.mpr ⟨⟨3, 9000⟩, by decide, by decide⟩
  · exact h.1.mp (by decide)
  · exact ((h.2.1 ⟨3, Severity.critical, 9000⟩ (by decide)).2.1) (by decide)

lemma dailyProjections_head (start : ℚ) (flow : Nat → ℚ) (n : Nat) :
    (dailyProjections start flow n).head? = some ⟨0, start⟩ := by
  unfold dailyProjections
  rw [List.range_succ_eq_map]
  rfl

lemma dailyProjections_offsets (start : ℚ) (flow : Nat → ℚ) (n : Nat) :
    (dailyProjections start flow n).map Projection.dayOffset
      = List.range (n + 1) := by
  unfold dailyProjections
  rw [List.map_map]
  simp [Function.comp_def]

/-- Claim C5: for every valid horizon, the forecast succeeds and its first
daily projection is day 0 at the current balance of the account (the sum
of all stored transactions), and the emitted projection days are strictly
increasing. -/
theorem forecast_day_zero (txns : List Txn) (weeks : Nat) (sc : ScenarioKind)
    (threshold : ℚ) (hw : weeks = 4 ∨ weeks = 6 ∨ weeks = 8) :
    ∃ res, forecast txns weeks sc threshold = Except.ok res
      ∧ res.projections.head? = some ⟨0, currentBalance txns⟩
      ∧ res.currentCash = currentBalance txns
      ∧ (res.projections.map Projection.dayOffset).Pairwise (· < ·) := by
  unfold forecast
  rw [if_pos hw]
  refine ⟨_, rfl, ?_, rfl, ?_⟩
  · exact dailyProjections_head _ _ _
  · show ((dailyProjections _ _ _).map Projection.dayOffset).Pairwise (· < ·)
    rw [dailyProjections_offsets]
    exact List.pairwise_lt_range _

/-- Witness for claim C5 on an empty store with a four-week horizon. -/
theorem forecast_day_zero_witness :
    ∃ res, forecast [] 4 ScenarioKind.base (10000 : ℚ) = Except.ok res
      ∧ res.projections.head? = some ⟨0, currentBalance []⟩
      ∧ res.currentCash = currentBalance []
      ∧ (res.projections.map Projection.dayOffset).Pairwise (· < ·) :=
  forecast_day_zero [] 4 ScenarioKind.base 10000 (Or.inl rfl)

lemma forecastConfidence_nil (trend : ℚ) :
    forecastConfidence [] trend = 0 := by
  unfold forecastConfidence patternFlowMagnitude
  simp

/-- Claim C7: a vendor group with fewer than three occurrences never
yields a recurring pattern; when every vendor stays below three
occurrences the detector emits nothing and the forecast still succeeds,
with an empty pattern list and the lowest possible reported confidence. -/
theorem pattern_min_occurrences (txns : List Txn) :
    (∀ v : String, (vendorGroup txns v).length < 3 →
      ∀ p ∈ detectPatterns txns, p.vendorKey ≠ v)
    ∧ ((∀ v : String, (vendorGroup txns v).length < 3) →
        detectPatterns txns = []
        ∧ ∀ (weeks : Nat) (sc : ScenarioKind) (threshold : ℚ),
            weeks = 4 ∨ weeks = 6 ∨ weeks = 8 →
            ∃ res, forecast txns weeks sc threshold = Except.ok res
              ∧ res.patterns = [] ∧ res.confidence = 0) := by
  constructor
  · intro v hv p hp
    obtain ⟨v2, hv2, heq⟩ := List.mem_filterMap.mp hp
    by_cases hc : (vendorGroup txns v2).length < 3
    · rw [if_pos hc] at heq
      cases heq
    · rw [if_neg hc] at heq
      injection heq with heq2
      intro hkey
      rw [← heq2] at hkey
      have : v2 = v := hkey
      rw [this] at hc
      exact hc hv
  · intro hall
    have hdp : detectPatterns txns = [] := by
      unfold detectPatterns
      rw [List.filterMap_eq_nil_iff]
      intro v hv
      rw [if_pos (hall v)]
    refine ⟨hdp, ?_⟩
    intro weeks sc threshold hw
    have hpats : (detectPatterns txns).filter
        (fun p => !(p.freqClass == FreqClass.irregular)) = [] := by
      rw [hdp]
      rfl
    unfold forecast
    rw [if_pos hw]
    refine ⟨_, rfl, hpats, ?_⟩
    show forecastConfidence
        ((detectPatterns txns).filter
          (fun p => !(p.freqClass == FreqClass.irregular)))
        (trendTerm txns
          ((detectPatterns txns).filter
            (fun p => !(p.freqClass == FreqClass.irregular)))) = 0
    rw [hpats]
    exact forecastConfidence_nil _

/-- Witness for claim C7: two transactions of one vendor are below the
three-occurrence bar, so no pattern is emitted and the four-week forecast
succeeds with zero confidence. -/
theorem pattern_min_occurrences_witness :
    detectPatterns
      [⟨"acme", "Software", 1, -100⟩, ⟨"acme", "Software", 8, -100⟩] = []
    ∧ ∃ res, forecast
        [⟨"acme", "Software", 1, -100⟩, ⟨"acme", "Software", 8, -100⟩]
        4 ScenarioKind.base (10000 : ℚ) = Except.ok res
      ∧ res.patterns = [] ∧ res.confidence = 0 := by
  have hlt : ∀ v : String,
      (vendorGroup
        [⟨"acme", "Software", 1, -100⟩, ⟨"acme", "Software", 8, -100⟩]
        v).length < 3 := by
    intro v
    have hle := List.length_filter_le (fun t => t.vendor == v)
      [(⟨"acme", "Software", 1, -100⟩ : Txn), ⟨"acme", "Software", 8, -100⟩]
    exact lt_of_le_of_lt hle (by decide)
  have h := (pattern_min_occurrences
    [⟨"acme", "Software", 1, -100⟩, ⟨"acme", "Software", 8, -100⟩]).2 hlt
  exact ⟨h.1, h.2 4 ScenarioKind.base 10000 (Or.inl rfl)⟩
